import Mathlib

/- Shallow embedding of the banner-creator editor core
   (src/components/CanvasEditor.tsx) and of the generative-service adapter
   (src/unnamed/part_000, the gemini service module).  Numbers are modelled
   as rationals, JS objects as Lean structures (with Option fields for
   optional keys), and the pieces of React state that the claims touch as an
   explicit EditorState record. -/

namespace BannerCreator

/-! ## JS numeric primitives -/

/-- JS truncation toward zero, as used by the `%` operator. -/
def jsTrunc (q : ℚ) : ℤ := if 0 ≤ q then ⌊q⌋ else ⌈q⌉

/-- The JS `%` operator on numbers: remainder with the sign of the dividend. -/
def jsRem (a b : ℚ) : ℚ := a - b * (jsTrunc (a / b) : ℚ)

/-- JS `Math.round`: round half toward positive infinity. -/
def jsRound (q : ℚ) : ℤ := ⌊q + 1 / 2⌋

/-! ## Scene model (CanvasEditor.tsx lines 21-64) -/

inductive ElKind where
  | text | image | cta | logo | shape
deriving DecidableEq, Repr

/-- The `style` record of a `CanvasElement` (lines 34-52).  JS objects are
open string-keyed maps, so a spread such as `{ ...el.style, ...updates }`
can deposit keys that are not part of the declared style schema; the
`xKey`/`yKey`/... slots model those stray runtime keys. -/
structure Style where
  fontSize : Option ℚ := none
  fontFamily : Option String := none
  fontWeight : Option String := none
  fontStyle : Option String := none
  textDecoration : Option String := none
  lineHeight : Option ℚ := none
  letterSpacing : Option ℚ := none
  color : Option String := none
  gradient : Option String := none
  backgroundColor : Option String := none
  textAlign : Option String := none
  borderRadius : Option ℚ := none
  padding : Option ℚ := none
  zIndex : ℚ
  opacity : Option ℚ := none
  borderWidth : Option ℚ := none
  borderColor : Option String := none
  xKey : Option ℚ := none
  yKey : Option ℚ := none
  widthKey : Option ℚ := none
  heightKey : Option ℚ := none
  rotationKey : Option ℚ := none
  contentKey : Option String := none
deriving DecidableEq, Repr

/-- `CanvasElement` (lines 21-53). -/
structure Element where
  id : String
  type : ElKind
  content : String
  x : ℚ
  y : ℚ
  width : ℚ
  height : ℚ
  rotation : ℚ
  scaleX : Option ℚ := none
  scaleY : Option ℚ := none
  groupId : Option String := none
  locked : Option Bool := none
  style : Style
deriving DecidableEq, Repr

inductive BgType where
  | image | color | gradient
deriving DecidableEq, Repr

/-- One history entry (line 141 and lines 217-225): a deep copy of the
elements plus the six background state variables. -/
structure Snapshot where
  elements : List Element
  bgValue : String
  bgType : BgType
  bgOpacity : ℚ
  bgScale : ℚ
  bgX : ℚ
  bgY : ℚ
deriving DecidableEq, Repr

/-- The mutable editor state relevant to the claims: the live scene
(the `elements` state plus the six background state variables), the
selection, and the history log with its cursor. -/
structure EditorState where
  scene : Snapshot
  selectedIds : List String
  history : List Snapshot
  historyIndex : ℕ
deriving DecidableEq, Repr

/-- `el.scaleX ?? 1` / `el.scaleY ?? 1` normalisation applied to the incoming
elements at line 131. -/
def normScale (el : Element) : Element :=
  { el with scaleX := some (el.scaleX.getD 1), scaleY := some (el.scaleY.getD 1) }

/-- Initial component state (lines 116-142): live elements are the deep-copied
initial elements with `scaleX`/`scaleY` defaulted, while the first history
entry (line 141) stores the raw `initialElements` together with the current
background values. -/
def initState (s0 : Snapshot) : EditorState :=
  { scene := { s0 with elements := s0.elements.map normScale }
    selectedIds := []
    history := [s0]
    historyIndex := 0 }

/-! ## History manager (lines 207-257) -/

/-- `saveToHistory` (lines 207-229): truncate beyond the cursor, append the
new snapshot (a deep copy — copies are identities on pure values), evict the
oldest entry when more than 20 are retained, and move the cursor to the end. -/
def saveToHistory (st : EditorState) (snap : Snapshot) : EditorState :=
  let h1 := st.history.take (st.historyIndex + 1) ++ [snap]
  let h2 := if h1.length > 20 then h1.drop 1 else h1
  { st with history := h2, historyIndex := h2.length - 1 }

/-- `undo` (lines 231-243): when the cursor is positive, restore the previous
snapshot into the live state and move the cursor back.  The `?? 1` / `?? 0`
defaults at lines 238-241 never fire because every stored entry carries all
seven fields. -/
def undo (st : EditorState) : EditorState :=
  if 0 < st.historyIndex then
    { st with
      scene := st.history.getD (st.historyIndex - 1) st.scene
      historyIndex := st.historyIndex - 1 }
  else st

/-- One committed edit: the caller installs a new scene into the live state
and then calls `saveToHistory` on it (the pattern of every mutating action,
e.g. lines 274-275, 303-305, 364-365). -/
def commitEdit (st : EditorState) (snap : Snapshot) : EditorState :=
  saveToHistory { st with scene := snap } snap

/-- Fold a sequence of committed edits over the state. -/
def applyCommits (st : EditorState) (edits : List Snapshot) : EditorState :=
  edits.foldl commitEdit st

/-- Iterate `undo`. -/
def applyUndos : ℕ → EditorState → EditorState
  | 0, st => st
  | n + 1, st => applyUndos n (undo st)

/-! ## updateSelected (lines 261-276) -/

/-- A patch as passed to `updateSelected`, restricted to the keys the claims
exercise (patches are JS object literals; absent keys are `none`). -/
structure Patch where
  x : Option ℚ := none
  y : Option ℚ := none
  width : Option ℚ := none
  height : Option ℚ := none
  rotation : Option ℚ := none
  content : Option String := none
  fontSize : Option ℚ := none
  color : Option String := none
  gradient : Option String := none
  backgroundColor : Option String := none
  zIndex : Option ℚ := none
  opacity : Option ℚ := none
deriving DecidableEq, Repr

/-- Lines 266-267: `Object.keys(updates).some(k => styleKeys.includes(k))`
restricted to the patch keys modelled here (`fontSize`, `color`, `gradient`,
`backgroundColor`, `zIndex`, `opacity` are in `styleKeys`; `x`, `y`, `width`,
`height`, `rotation`, `content` are not). -/
def isStyleUpdate (p : Patch) : Bool :=
  p.fontSize.isSome || p.color.isSome || p.gradient.isSome ||
  p.backgroundColor.isSome || p.zIndex.isSome || p.opacity.isSome

/-- `{ ...el.style, ...updates }` (line 270): every key present in the patch
overrides the style record; patch keys outside the style schema (x, y, ...)
are deposited as stray runtime keys of the style object. -/
def mergeIntoStyle (s : Style) (p : Patch) : Style :=
  { s with
    fontSize := p.fontSize.or s.fontSize
    color := p.color.or s.color
    gradient := p.gradient.or s.gradient
    backgroundColor := p.backgroundColor.or s.backgroundColor
    zIndex := p.zIndex.getD s.zIndex
    opacity := p.opacity.or s.opacity
    xKey := p.x.or s.xKey
    yKey := p.y.or s.yKey
    widthKey := p.width.or s.widthKey
    heightKey := p.height.or s.heightKey
    rotationKey := p.rotation.or s.rotationKey
    contentKey := p.content.or s.contentKey }

/-- `{ ...el, ...updates }` (line 272): reached only when the patch contains
no style-classified key, so only top-level keys are merged. -/
def mergeIntoTop (el : Element) (p : Patch) : Element :=
  { el with
    x := p.x.getD el.x
    y := p.y.getD el.y
    width := p.width.getD el.width
    height := p.height.getD el.height
    rotation := p.rotation.getD el.rotation
    content := p.content.getD el.content }

/-- Per-element body of `updateSelected` (lines 262-273). -/
def applyPatch (selectedIds : List String) (p : Patch) (el : Element) : Element :=
  if el.id ∉ selectedIds then el
  else if el.locked = some true then el
  else if isStyleUpdate p then { el with style := mergeIntoStyle el.style p }
  else mergeIntoTop el p

/-- `updateSelected` (lines 261-276): map the patch over the element list and
commit one history snapshot of the result (line 275 runs unconditionally). -/
def updateSelected (st : EditorState) (p : Patch) : EditorState :=
  saveToHistory
    { st with scene :=
        { st.scene with elements := st.scene.elements.map (applyPatch st.selectedIds p) } }
    { st.scene with elements := st.scene.elements.map (applyPatch st.selectedIds p) }

/-! ## History lemmas -/

lemma getD_default_irrel (l : List α) (k : ℕ) (h : k < l.length) (d1 d2 : α) :
    l.getD k d1 = l.getD k d2 := by
  rw [List.getD_eq_getElem?_getD, List.getD_eq_getElem?_getD, List.getElem?_eq_getElem h]
  rfl

lemma commitEdit_history (st : EditorState) (s : Snapshot)
    (hinv : st.historyIndex + 1 = st.history.length)
    (hlen : st.history.length + 1 ≤ 20) :
    (commitEdit st s).history = st.history ++ [s] := by
  have ht : st.history.take (st.historyIndex + 1) = st.history := by
    rw [hinv]; exact st.history.take_length
  have hnot : ¬ 20 < st.history.length + 1 := by omega
  simp [commitEdit, saveToHistory, ht, hnot]

lemma commitEdit_historyIndex (st : EditorState) (s : Snapshot)
    (hinv : st.historyIndex + 1 = st.history.length)
    (hlen : st.history.length + 1 ≤ 20) :
    (commitEdit st s).historyIndex = st.history.length := by
  have ht : st.history.take (st.historyIndex + 1) = st.history := by
    rw [hinv]; exact st.history.take_length
  have hnot : ¬ 20 < st.history.length + 1 := by omega
  simp [commitEdit, saveToHistory, ht, hnot]

lemma applyCommits_spec (edits : List Snapshot) (st : EditorState)
    (hinv : st.historyIndex + 1 = st.history.length)
    (hlen : st.history.length + edits.length ≤ 20) :
    (applyCommits st edits).history = st.history ++ edits ∧
    (applyCommits st edits).historyIndex = st.history.length + edits.length - 1 := by
  induction edits generalizing st with
  | nil =>
    constructor
    · simp [applyCommits]
    · simp only [applyCommits, List.foldl_nil, List.length_nil]
      omega
  | cons e rest ih =>
    have h1 : st.history.length + 1 ≤ 20 := by
      simp only [List.length_cons] at hlen; omega
    have eh := commitEdit_history st e hinv h1
    have ei := commitEdit_historyIndex st e hinv h1
    have hinv2 : (commitEdit st e).historyIndex + 1 = (commitEdit st e).history.length := by
      rw [eh, ei]; simp
    have hlen2 : (commitEdit st e).history.length + rest.length ≤ 20 := by
      rw [eh]
      simp only [List.length_append, List.length_singleton]
      simp only [List.length_cons] at hlen
      omega
    have hrec := ih (commitEdit st e) hinv2 hlen2
    rw [eh] at hrec
    constructor
    · show (applyCommits (commitEdit st e) rest).history = st.history ++ e :: rest
      rw [hrec.1, List.append_assoc, List.singleton_append]
    · show (applyCommits (commitEdit st e) rest).historyIndex =
        st.history.length + (e :: rest).length - 1
      have hl : (st.history ++ [e]).length = st.history.length + 1 := by simp
      rw [hrec.2, hl]
      simp only [List.length_cons]
      omega

lemma applyUndos_spec (n : ℕ) (st : EditorState)
    (hn : n ≤ st.historyIndex) (hidx : st.historyIndex < st.history.length) :
    (applyUndos n st).history = st.history ∧
    (applyUndos n st).historyIndex = st.historyIndex - n ∧
    (1 ≤ n → ∀ d, (applyUndos n st).scene = st.history.getD (st.historyIndex - n) d) := by
  induction n generalizing st with
  | zero =>
    refine ⟨rfl, by simp [applyUndos], ?_⟩
    intro h; omega
  | succ n ih =>
    have hpos : 0 < st.historyIndex := by omega
    have hu : undo st =
        { st with
          scene := st.history.getD (st.historyIndex - 1) st.scene
          historyIndex := st.historyIndex - 1 } := by
      simp [undo, hpos]
    have e1 : (undo st).historyIndex = st.historyIndex - 1 := by rw [hu]
    have e2 : (undo st).history = st.history := by rw [hu]
    have e3 : (undo st).scene = st.history.getD (st.historyIndex - 1) st.scene := by
      rw [hu]
    have hrec := ih (undo st) (by rw [e1]; omega) (by rw [e1, e2]; omega)
    refine ⟨?_, ?_, ?_⟩
    · show (applyUndos n (undo st)).history = st.history
      rw [hrec.1, e2]
    · show (applyUndos n (undo st)).historyIndex = st.historyIndex - (n + 1)
      rw [hrec.2.1, e1]; omega
    · intro _ d
      show (applyUndos n (undo st)).scene = st.history.getD (st.historyIndex - (n + 1)) d
      rcases Nat.eq_zero_or_pos n with h0 | h1
      · subst h0
        show (undo st).scene = st.history.getD (st.historyIndex - 1) d
        rw [e3]
        exact getD_default_irrel st.history (st.historyIndex - 1) (by omega) _ _
      · have hs := hrec.2.2 h1 d
        rw [e2, e1] at hs
        rw [hs]
        congr 1
        omega

lemma getLast?_concat_drop_one (l : List α) (a : α) (h : 1 ≤ l.length) :
    ((l ++ [a]).drop 1).getLast? = some a := by
  cases l with
  | nil => simp at h
  | cons b t => simp

lemma saveToHistory_spec (st : EditorState) (snap : Snapshot)
    (hidx : st.historyIndex < st.history.length) (hcap : st.history.length ≤ 20) :
    (saveToHistory st snap).history.length = min (st.historyIndex + 2) 20 ∧
    (saveToHistory st snap).history.getLast? = some snap ∧
    (saveToHistory st snap).scene = st.scene := by
  have htl : (st.history.take (st.historyIndex + 1)).length = st.historyIndex + 1 := by
    rw [List.length_take]; omega
  have hlen1 : (st.history.take (st.historyIndex + 1) ++ [snap]).length
      = st.historyIndex + 2 := by
    simp only [List.length_append, List.length_singleton, htl]
  have hhist : (saveToHistory st snap).history
      = if (st.history.take (st.historyIndex + 1) ++ [snap]).length > 20
        then (st.history.take (st.historyIndex + 1) ++ [snap]).drop 1
        else st.history.take (st.historyIndex + 1) ++ [snap] := rfl
  by_cases hb : (st.history.take (st.historyIndex + 1) ++ [snap]).length > 20
  · refine ⟨?_, ?_, rfl⟩
    · rw [hhist, if_pos hb, List.length_drop, hlen1]
      rw [hlen1] at hb
      omega
    · rw [hhist, if_pos hb]
      exact getLast?_concat_drop_one _ _ (by omega)
  · refine ⟨?_, ?_, rfl⟩
    · rw [hhist, if_neg hb, hlen1]
      rw [hlen1] at hb
      omega
    · rw [hhist, if_neg hb]
      exact List.getLast?_concat _

lemma map_applyPatch_locked (els : List Element) (sel : List String) (p : Patch)
    (h : ∀ el ∈ els, el.id ∈ sel → el.locked = some true) :
    els.map (applyPatch sel p) = els := by
  induction els with
  | nil => rfl
  | cons a t ih =>
    simp only [List.map_cons]
    have ha : applyPatch sel p a = a := by
      by_cases hm : a.id ∈ sel
      · have hl := h a (by simp) hm
        simp [applyPatch, hm, hl]
      · simp [applyPatch, hm]
    rw [ha, ih (fun el hel hm => h el (by simp [hel]) hm)]

/-! ## Claim C1 -/

/-- Claim C1 (amended): for 1 ≤ N ≤ 19 committed edits, N undos restore the
scene to the initial history snapshot.  (The claim's bound N ≤ 20 fails at
N = 20: the 20-entry cap of `saveToHistory` evicts the initial snapshot on
the 20th edit — see the counterexample theorem.) -/
theorem undo_restores_initial (s0 : Snapshot) (edits : List Snapshot)
    (h1 : 1 ≤ edits.length) (h19 : edits.length ≤ 19) :
    (applyUndos edits.length (applyCommits (initState s0) edits)).scene = s0 := by
  have hinv : (initState s0).historyIndex + 1 = (initState s0).history.length := by
    simp [initState]
  have hlen : (initState s0).history.length + edits.length ≤ 20 := by
    simp only [initState, List.length_singleton]
    omega
  have hc := applyCommits_spec edits (initState s0) hinv hlen
  have hh : (applyCommits (initState s0) edits).history = s0 :: edits := by
    rw [hc.1]; rfl
  have hi : (applyCommits (initState s0) edits).historyIndex = edits.length := by
    rw [hc.2]
    show 1 + edits.length - 1 = edits.length
    omega
  have hu := applyUndos_spec edits.length (applyCommits (initState s0) edits)
    (by rw [hi]) (by rw [hi, hh]; simp)
  have hfin := hu.2.2 h1 s0
  rw [hi, hh] at hfin
  simpa using hfin

def c1Snap : Snapshot :=
  { elements := [], bgValue := "bg", bgType := .color, bgOpacity := 1,
    bgScale := 1, bgX := 0, bgY := 0 }

def c1Edits : List Snapshot :=
  (List.range 20).map (fun i => { c1Snap with bgValue := String.append "e" (Nat.repr i) })

def c1WitnessEdits : List Snapshot :=
  (List.range 3).map (fun i => { c1Snap with bgValue := String.append "w" (Nat.repr i) })

theorem undo_restores_initial_witness :
    1 ≤ c1WitnessEdits.length ∧ c1WitnessEdits.length ≤ 19 ∧
    (applyUndos c1WitnessEdits.length
      (applyCommits (initState c1Snap) c1WitnessEdits)).scene = c1Snap :=
  ⟨by decide, by decide,
    undo_restores_initial c1Snap c1WitnessEdits (by decide) (by decide)⟩

set_option maxRecDepth 8000 in
/-- Claim C1 counterexample: a sequence of exactly 20 pairwise-distinct
committed edits (allowed by the claim's bound N ≤ 20) after which 20 undos
do NOT restore the initial snapshot: the 20th `saveToHistory` call pushes
the history to 21 entries and evicts the initial one. -/
theorem undo_twenty_edits_evicts_initial :
    c1Edits.length = 20 ∧ c1Edits.Nodup ∧
    (applyUndos 20 (applyCommits (initState c1Snap) c1Edits)).scene ≠ c1Snap := by
  refine ⟨by decide, by decide, by decide⟩

/-! ## Claim C3 -/

/-- Claim C3 (amended): `updateSelected` always appends exactly one history
entry — the truncated history grows by one (capped at 20 with the oldest
evicted) and the new last entry is the resulting scene; when every targeted
element is locked the element list is unchanged, but an (identical) history
entry is still appended, because line 275 calls `saveToHistory`
unconditionally. -/
theorem updateSelected_history_append (st : EditorState) (p : Patch)
    (hidx : st.historyIndex < st.history.length)
    (hcap : st.history.length ≤ 20) :
    (updateSelected st p).history.length = min (st.historyIndex + 2) 20 ∧
    (updateSelected st p).history.getLast? = some (updateSelected st p).scene ∧
    ((∀ el ∈ st.scene.elements, el.id ∈ st.selectedIds → el.locked = some true) →
      (updateSelected st p).scene.elements = st.scene.elements) := by
  have hs := saveToHistory_spec
    { st with scene :=
        { st.scene with elements := st.scene.elements.map (applyPatch st.selectedIds p) } }
    { st.scene with elements := st.scene.elements.map (applyPatch st.selectedIds p) }
    hidx hcap
  exact ⟨hs.1, hs.2.1.trans (congrArg some hs.2.2.symm),
    fun hall => map_applyPatch_locked st.scene.elements st.selectedIds p hall⟩

def c3El : Element :=
  { id := "a", type := .text, content := "hi", x := 0, y := 0, width := 1,
    height := 1, rotation := 0, locked := some true, style := { zIndex := 1 } }

def c3Scene : Snapshot :=
  { elements := [c3El], bgValue := "bg", bgType := .color, bgOpacity := 1,
    bgScale := 1, bgX := 0, bgY := 0 }

def c3St : EditorState :=
  { scene := c3Scene, selectedIds := ["a"], history := [c3Scene], historyIndex := 0 }

def c3P : Patch := { x := some 1 }

theorem updateSelected_history_append_witness :
    (updateSelected c3St c3P).history.length = min (c3St.historyIndex + 2) 20 ∧
    (updateSelected c3St c3P).history.getLast? = some (updateSelected c3St c3P).scene ∧
    ((∀ el ∈ c3St.scene.elements, el.id ∈ c3St.selectedIds → el.locked = some true) →
      (updateSelected c3St c3P).scene.elements = c3St.scene.elements) :=
  updateSelected_history_append c3St c3P (by decide) (by decide)

/-- Claim C3 counterexample: a scene whose single targeted element is locked.
`updateSelected` leaves the element list unchanged (the operation is a no-op
on the elements) yet still appends a new History Entry, refuting "no new
History Entry is appended". -/
theorem updateSelected_locked_appends_entry :
    c3El.locked = some true ∧
    (updateSelected c3St c3P).scene.elements = c3St.scene.elements ∧
    (updateSelected c3St c3P).history.length = c3St.history.length + 1 := by
  refine ⟨rfl, by decide, by decide⟩

/-! ## Claim C5 -/

/-- Claim C5 (amended): `updateSelected` routes each patch as a whole, not
key by key: if the patch contains at least one style-classified key
(`fontSize`, `color`, `gradient`, `backgroundColor`, `zIndex`, `opacity`),
the entire patch is spread into the style sub-record — leaving every
top-level field unchanged but depositing any top-level-classified keys
(such as `x`) inside the style record — and otherwise the entire patch is
spread into the top level, leaving the style record unchanged. -/
theorem updateSelected_patch_routing (sel : List String) (p : Patch) (el : Element)
    (hmem : el.id ∈ sel) (hunlocked : el.locked ≠ some true) :
    (isStyleUpdate p = true →
      applyPatch sel p el = { el with style := mergeIntoStyle el.style p } ∧
      (applyPatch sel p el).x = el.x ∧
      (applyPatch sel p el).y = el.y ∧
      (applyPatch sel p el).width = el.width ∧
      (applyPatch sel p el).height = el.height ∧
      (applyPatch sel p el).rotation = el.rotation ∧
      (applyPatch sel p el).content = el.content ∧
      (applyPatch sel p el).style.xKey = p.x.or el.style.xKey) ∧
    (isStyleUpdate p = false →
      applyPatch sel p el = mergeIntoTop el p ∧
      (applyPatch sel p el).style = el.style) := by
  constructor
  · intro hstyle
    have ha : applyPatch sel p el = { el with style := mergeIntoStyle el.style p } := by
      simp [applyPatch, hmem, hunlocked, hstyle]
    refine ⟨ha, ?_, ?_, ?_, ?_, ?_, ?_, ?_⟩ <;> rw [ha] <;> rfl
  · intro hstyle
    have ha : applyPatch sel p el = mergeIntoTop el p := by
      simp [applyPatch, hmem, hunlocked, hstyle]
    refine ⟨ha, ?_⟩
    rw [ha]
    rfl

def c5El : Element :=
  { id := "t1", type := .text, content := "hi", x := 0, y := 0, width := 1,
    height := 1, rotation := 0, style := { zIndex := 1 } }

def c5P : Patch := { x := some 1, color := some "red" }

theorem updateSelected_patch_routing_witness :
    (isStyleUpdate c5P = true →
      applyPatch ["t1"] c5P c5El = { c5El with style := mergeIntoStyle c5El.style c5P } ∧
      (applyPatch ["t1"] c5P c5El).x = c5El.x ∧
      (applyPatch ["t1"] c5P c5El).y = c5El.y ∧
      (applyPatch ["t1"] c5P c5El).width = c5El.width ∧
      (applyPatch ["t1"] c5P c5El).height = c5El.height ∧
      (applyPatch ["t1"] c5P c5El).rotation = c5El.rotation ∧
      (applyPatch ["t1"] c5P c5El).content = c5El.content ∧
      (applyPatch ["t1"] c5P c5El).style.xKey = c5P.x.or c5El.style.xKey) ∧
    (isStyleUpdate c5P = false →
      applyPatch ["t1"] c5P c5El = mergeIntoTop c5El c5P ∧
      (applyPatch ["t1"] c5P c5El).style = c5El.style) :=
  updateSelected_patch_routing ["t1"] c5P c5El (by decide) (by decide)

/-- Claim C5 counterexample: the mixed patch `{ x: 1, color: "red" }` applied
to an unlocked selected element is routed entirely into the style sub-record
(because `color` is style-classified), so the top-level key `x` ends up
inside the style record instead of updating the element's position —
refuting "never both" per-key routing. -/
theorem mixed_patch_routes_into_style :
    c5El.locked ≠ some true ∧
    (applyPatch ["t1"] c5P c5El).style.xKey = some 1 ∧
    (applyPatch ["t1"] c5P c5El).x = c5El.x := by
  refine ⟨by decide, by decide, by decide⟩

/-! ## Claim C9: duplicateSelected (lines 285-306) -/

/-- The clone built at lines 291-297: a deep copy (identity on pure values)
with the generated id and a +20/+20 positional offset. -/
def cloneOf (el : Element) (fid : String) : Element :=
  { el with id := fid, x := el.x + 20, y := el.y + 20 }

/-- The clones pushed by the `elements.forEach` loop (lines 289-301),
consuming one generated id per selected element in element-list order.
`gen n` models the value of the template string
`type-Date.now()-Math.random()` at its n-th evaluation: id generation reads
the clock and the RNG, so it is an oracle parameter of the model. -/
def dupClones (sel : List String) (gen : ℕ → String) : List Element → ℕ → List Element
  | [], _ => []
  | el :: rest, n =>
    if el.id ∈ sel then cloneOf el (gen n) :: dupClones sel gen rest (n + 1)
    else dupClones sel gen rest n

/-- `duplicateSelected` (lines 285-306): append the clones to a copy of the
element list, select the new ids, and commit one history snapshot. -/
def duplicateSelected (st : EditorState) (gen : ℕ → String) : EditorState :=
  saveToHistory
    { st with
      scene := { st.scene with
        elements := st.scene.elements ++ dupClones st.selectedIds gen st.scene.elements 0 }
      selectedIds := (dupClones st.selectedIds gen st.scene.elements 0).map (fun c => c.id) }
    { st.scene with
      elements := st.scene.elements ++ dupClones st.selectedIds gen st.scene.elements 0 }

lemma dupClones_length (sel : List String) (gen : ℕ → String) (l : List Element) (n : ℕ) :
    (dupClones sel gen l n).length = (l.filter (fun el => el.id ∈ sel)).length := by
  induction l generalizing n with
  | nil => rfl
  | cons a t ih =>
    by_cases h : a.id ∈ sel
    · simp [dupClones, h, List.filter_cons, ih (n + 1)]
    · simp [dupClones, h, List.filter_cons, ih n]

lemma dupClones_map_style (sel : List String) (gen : ℕ → String) (l : List Element) (n : ℕ) :
    (dupClones sel gen l n).map (fun c => c.style)
      = (l.filter (fun el => el.id ∈ sel)).map (fun el => el.style) := by
  induction l generalizing n with
  | nil => rfl
  | cons a t ih =>
    by_cases h : a.id ∈ sel
    · simp [dupClones, cloneOf, h, List.filter_cons, ih (n + 1)]
    · simp [dupClones, h, List.filter_cons, ih n]

lemma dupClones_map_x (sel : List String) (gen : ℕ → String) (l : List Element) (n : ℕ) :
    (dupClones sel gen l n).map (fun c => c.x)
      = (l.filter (fun el => el.id ∈ sel)).map (fun el => el.x + 20) := by
  induction l generalizing n with
  | nil => rfl
  | cons a t ih =>
    by_cases h : a.id ∈ sel
    · simp [dupClones, cloneOf, h, List.filter_cons, ih (n + 1)]
    · simp [dupClones, h, List.filter_cons, ih n]

lemma dupClones_map_y (sel : List String) (gen : ℕ → String) (l : List Element) (n : ℕ) :
    (dupClones sel gen l n).map (fun c => c.y)
      = (l.filter (fun el => el.id ∈ sel)).map (fun el => el.y + 20) := by
  induction l generalizing n with
  | nil => rfl
  | cons a t ih =>
    by_cases h : a.id ∈ sel
    · simp [dupClones, cloneOf, h, List.filter_cons, ih (n + 1)]
    · simp [dupClones, h, List.filter_cons, ih n]

lemma dupClones_map_id (sel : List String) (gen : ℕ → String) (l : List Element) (n : ℕ) :
    (dupClones sel gen l n).map (fun c => c.id)
      = (List.range (l.filter (fun el => el.id ∈ sel)).length).map (fun i => gen (n + i)) := by
  induction l generalizing n with
  | nil => rfl
  | cons a t ih =>
    by_cases h : a.id ∈ sel
    · have hfe : (fun i => gen (n + 1 + i)) = (fun i => gen (n + (i + 1))) := by
        funext i; congr 1; omega
      have ht := ih (n + 1)
      rw [hfe] at ht
      simp [dupClones, h, List.filter_cons, cloneOf, List.range_succ_eq_map,
        List.map_map, ht, Function.comp, Nat.succ_eq_add_one]
    · simp [dupClones, h, List.filter_cons, ih n]

/-- Claim C9: duplicating a selection of k elements appends exactly k clones
(the originals are untouched, in place), each clone carrying a generated id
that is distinct from every existing id and from the other clones' ids
(granted the oracle hypotheses on the id generator), an identical style
record, and position offset by exactly (+20, +20) from its source. -/
theorem duplicateSelected_spec (st : EditorState) (gen : ℕ → String)
    (hnodup : ((List.range
        ((st.scene.elements.filter (fun el => el.id ∈ st.selectedIds)).length)).map gen).Nodup)
    (hfresh : ∀ s ∈ (List.range
        ((st.scene.elements.filter (fun el => el.id ∈ st.selectedIds)).length)).map gen,
        s ∉ st.scene.elements.map (fun el => el.id)) :
    (duplicateSelected st gen).scene.elements.length
      = st.scene.elements.length
        + (st.scene.elements.filter (fun el => el.id ∈ st.selectedIds)).length ∧
    (duplicateSelected st gen).scene.elements.take st.scene.elements.length
      = st.scene.elements ∧
    (((duplicateSelected st gen).scene.elements.drop st.scene.elements.length).map
        (fun c => c.id)).Nodup ∧
    (∀ s ∈ ((duplicateSelected st gen).scene.elements.drop st.scene.elements.length).map
        (fun c => c.id), s ∉ st.scene.elements.map (fun el => el.id)) ∧
    ((duplicateSelected st gen).scene.elements.drop st.scene.elements.length).map
        (fun c => c.style)
      = (st.scene.elements.filter (fun el => el.id ∈ st.selectedIds)).map
          (fun el => el.style) ∧
    ((duplicateSelected st gen).scene.elements.drop st.scene.elements.length).map
        (fun c => c.x)
      = (st.scene.elements.filter (fun el => el.id ∈ st.selectedIds)).map
          (fun el => el.x + 20) ∧
    ((duplicateSelected st gen).scene.elements.drop st.scene.elements.length).map
        (fun c => c.y)
      = (st.scene.elements.filter (fun el => el.id ∈ st.selectedIds)).map
          (fun el => el.y + 20) := by
  have helems : (duplicateSelected st gen).scene.elements
      = st.scene.elements ++ dupClones st.selectedIds gen st.scene.elements 0 := rfl
  have htake : (duplicateSelected st gen).scene.elements.take st.scene.elements.length
      = st.scene.elements := by
    rw [helems]; exact List.take_left _ _
  have hdrop : (duplicateSelected st gen).scene.elements.drop st.scene.elements.length
      = dupClones st.selectedIds gen st.scene.elements 0 := by
    rw [helems]; exact List.drop_left _ _
  have hid0 : (dupClones st.selectedIds gen st.scene.elements 0).map (fun c => c.id)
      = (List.range
          ((st.scene.elements.filter (fun el => el.id ∈ st.selectedIds)).length)).map gen := by
    rw [dupClones_map_id]
    simp
  refine ⟨?_, htake, ?_, ?_, ?_, ?_, ?_⟩
  · rw [helems, List.length_append, dupClones_length]
  · rw [hdrop, hid0]; exact hnodup
  · rw [hdrop, hid0]; exact hfresh
  · rw [hdrop]; exact dupClones_map_style _ _ _ _
  · rw [hdrop]; exact dupClones_map_x _ _ _ _
  · rw [hdrop]; exact dupClones_map_y _ _ _ _

def c9ElA : Element :=
  { id := "a", type := .text, content := "hi", x := 0, y := 1, width := 1,
    height := 1, rotation := 0, style := { zIndex := 1 } }

def c9ElB : Element :=
  { id := "b", type := .shape, content := "c", x := 1, y := 0, width := 1,
    height := 1, rotation := 0, style := { zIndex := 0 } }

def c9St : EditorState :=
  { scene := { elements := [c9ElA, c9ElB], bgValue := "bg", bgType := .color,
               bgOpacity := 1, bgScale := 1, bgX := 0, bgY := 0 }
    selectedIds := ["a"]
    history := [{ elements := [c9ElA, c9ElB], bgValue := "bg", bgType := .color,
                  bgOpacity := 1, bgScale := 1, bgX := 0, bgY := 0 }]
    historyIndex := 0 }

def c9Gen (n : ℕ) : String := String.append "dup" (Nat.repr n)

theorem duplicateSelected_spec_witness :
    (duplicateSelected c9St c9Gen).scene.elements.length
      = c9St.scene.elements.length
        + (c9St.scene.elements.filter (fun el => el.id ∈ c9St.selectedIds)).length ∧
    (duplicateSelected c9St c9Gen).scene.elements.take c9St.scene.elements.length
      = c9St.scene.elements ∧
    (((duplicateSelected c9St c9Gen).scene.elements.drop c9St.scene.elements.length).map
        (fun c => c.id)).Nodup ∧
    (∀ s ∈ ((duplicateSelected c9St c9Gen).scene.elements.drop c9St.scene.elements.length).map
        (fun c => c.id), s ∉ c9St.scene.elements.map (fun el => el.id)) ∧
    ((duplicateSelected c9St c9Gen).scene.elements.drop c9St.scene.elements.length).map
        (fun c => c.style)
      = (c9St.scene.elements.filter (fun el => el.id ∈ c9St.selectedIds)).map
          (fun el => el.style) ∧
    ((duplicateSelected c9St c9Gen).scene.elements.drop c9St.scene.elements.length).map
        (fun c => c.x)
      = (c9St.scene.elements.filter (fun el => el.id ∈ c9St.selectedIds)).map
          (fun el => el.x + 20) ∧
    ((duplicateSelected c9St c9Gen).scene.elements.drop c9St.scene.elements.length).map
        (fun c => c.y)
      = (c9St.scene.elements.filter (fun el => el.id ∈ c9St.selectedIds)).map
          (fun el => el.y + 20) :=
  duplicateSelected_spec c9St c9Gen (by decide) (by decide)

/-! ## Claim C4: rotation snapping (lines 717-732) -/

/-- JS `Math.abs`. -/
def jsAbs (q : ℚ) : ℚ := if q < 0 then -q else q

/-- Lines 727-728: `snapAngle = angle + 90;
if (Math.abs(snapAngle % 45) < 5) snapAngle = Math.round(snapAngle / 45) * 45`. -/
def rotSnap (s : ℚ) : ℚ :=
  if jsAbs (jsRem s 45) < 5 then (jsRound (s / 45) : ℚ) * 45 else s

/-- The rotation stored by the `Rotating` branch of `handleMouseMove`
(lines 717-732), as a function of the atan2 result in degrees:
`Math.atan2(dy, dx) * (180 / Math.PI)` is transcendental in the pointer
coordinates, so the pointer-to-angle stage is abstracted as the input
`angleDeg` (ranging over atan2's image (-180, 180]). -/
def handleRotate (angleDeg : ℚ) : ℚ := rotSnap (angleDeg + 90)

/-- Line 729: write the snapped rotation into the selected element. -/
def rotateMove (els : List Element) (id : String) (angleDeg : ℚ) : List Element :=
  els.map (fun item =>
    if item.id = id then { item with rotation := handleRotate angleDeg } else item)

lemma jsAbs_eq_abs (q : ℚ) : jsAbs q = |q| := by
  rw [jsAbs]
  by_cases h : q < 0
  · rw [if_pos h, abs_of_neg h]
  · rw [if_neg h, abs_of_nonneg (le_of_not_lt h)]

lemma rotSnap_spec (s : ℚ) :
    (jsAbs (jsRem s 45) < 5 →
      ∃ k : ℤ, rotSnap s = 45 * k ∧ jsAbs (s - 45 * k) < 5 ∧
        ∀ j : ℤ, j ≠ k → jsAbs (s - 45 * j) > 5) ∧
    (¬ jsAbs (jsRem s 45) < 5 → rotSnap s = s) := by
  constructor
  · intro h
    set t := jsTrunc (s / 45) with ht
    have hr : jsRem s 45 = s - 45 * (t : ℚ) := by
      rw [jsRem, ht]
    have habs : |s - 45 * (t : ℚ)| < 5 := by
      rw [jsAbs_eq_abs, hr] at h
      exact h
    have hs45 : 45 * (s / 45) = s := by
      field_simp
    have hlow : -5 < s - 45 * (t : ℚ) := by
      have := abs_lt.mp habs
      linarith [this.1]
    have hhigh : s - 45 * (t : ℚ) < 5 := by
      have := abs_lt.mp habs
      linarith [this.2]
    have hround : jsRound (s / 45) = t := by
      rw [jsRound]
      rw [Int.floor_eq_iff]
      constructor
      · linarith
      · linarith
    refine ⟨t, ?_, ?_, ?_⟩
    · rw [rotSnap, if_pos h, hround]
      ring
    · rw [jsAbs_eq_abs]
      exact habs
    · intro j hj
      rw [jsAbs_eq_abs]
      have e : s - 45 * (j : ℚ) = (45 * ((t : ℚ) - (j : ℚ))) + (s - 45 * (t : ℚ)) := by
        ring
      have h4 : |45 * ((t : ℚ) - (j : ℚ))|
          ≤ |45 * ((t : ℚ) - (j : ℚ)) + (s - 45 * (t : ℚ))| + |s - 45 * (t : ℚ)| := by
        have habs2 := abs_add (45 * ((t : ℚ) - (j : ℚ)) + (s - 45 * (t : ℚ)))
          (-(s - 45 * (t : ℚ)))
        have he : (45 * ((t : ℚ) - (j : ℚ)) + (s - 45 * (t : ℚ))) + (-(s - 45 * (t : ℚ)))
            = 45 * ((t : ℚ) - (j : ℚ)) := by
          ring
        rw [he] at habs2
        simpa [abs_sub_comm] using habs2
      have h45 : (45 : ℚ) ≤ |45 * ((t : ℚ) - (j : ℚ))| := by
        rw [abs_mul]
        have h1 : (1 : ℚ) ≤ |(t : ℚ) - (j : ℚ)| := by
          have hne : t - j ≠ 0 := sub_ne_zero.mpr (fun hc => hj hc.symm)
          have := Int.one_le_abs hne
          have hcast : ((|t - j| : ℤ) : ℚ) = |(t : ℚ) - (j : ℚ)| := by
            push_cast
            rfl
          rw [← hcast]
          exact_mod_cast this
        have : |(45 : ℚ)| = 45 := by norm_num
        nlinarith
      rw [e]
      linarith
  · intro h
    rw [rotSnap, if_neg h]

/-- Claim C4 (amended): while `Rotating`, the element's new rotation is the
atan2-derived pointer angle plus 90° passed through `rotSnap`; the snap fires
exactly when the JS remainder `(angle + 90) % 45` has absolute value < 5 —
i.e. the angle is within 5° past a multiple of 45° in the direction of zero's
side (5° above the multiple for nonnegative angles, 5° below it for negative
ones) — and then the result is the unique 45° multiple less than 5° away;
otherwise the angle is kept unchanged.  In particular an angle within 5° of a
multiple on the far side (such as 41°, 4° below 45°) is NOT snapped, contrary
to the claim's "every angle lying within 5° of some multiple of 45°". -/
theorem rotation_snap_characterization (angleDeg : ℚ) :
    (jsAbs (jsRem (angleDeg + 90) 45) < 5 →
      ∃ k : ℤ, handleRotate angleDeg = 45 * k ∧
        jsAbs ((angleDeg + 90) - 45 * k) < 5 ∧
        ∀ j : ℤ, j ≠ k → jsAbs ((angleDeg + 90) - 45 * j) > 5) ∧
    (¬ jsAbs (jsRem (angleDeg + 90) 45) < 5 →
      handleRotate angleDeg = angleDeg + 90) :=
  rotSnap_spec (angleDeg + 90)

theorem rotation_snap_characterization_witness :
    (∃ k : ℤ, handleRotate (-44) = 45 * k ∧
        jsAbs (((-44 : ℚ) + 90) - 45 * k) < 5 ∧
        ∀ j : ℤ, j ≠ k → jsAbs (((-44 : ℚ) + 90) - 45 * j) > 5) ∧
    handleRotate (-49) = (-49 : ℚ) + 90 := by
  have h46 : ⌊(46 : ℚ) / 45⌋ = 1 := by
    rw [Int.floor_eq_iff]
    constructor <;> norm_num
  have h41 : ⌊(41 : ℚ) / 45⌋ = 0 := by
    rw [Int.floor_eq_iff]
    constructor <;> norm_num
  refine ⟨(rotation_snap_characterization (-44)).1 ?_,
          (rotation_snap_characterization (-49)).2 ?_⟩
  · show jsAbs (jsRem ((-44 : ℚ) + 90) 45) < 5
    have : ((-44 : ℚ) + 90) = 46 := by norm_num
    rw [this]
    rw [jsRem, jsTrunc, if_pos (by norm_num), h46]
    rw [jsAbs]
    norm_num
  · show ¬ jsAbs (jsRem ((-49 : ℚ) + 90) 45) < 5
    have : ((-49 : ℚ) + 90) = 41 := by norm_num
    rw [this]
    rw [jsRem, jsTrunc, if_pos (by norm_num), h41]
    rw [jsAbs]
    norm_num

/-- Claim C4 counterexample: the angle 41° (reached e.g. when atan2 returns
-49°) lies within 5° of the 45° multiple (distance 4°), yet the code's
condition `Math.abs(41 % 45) < 5` is false (41 % 45 = 41), so the rotation
stays 41° instead of snapping to 45° — refuting "for every angle lying
within 5° of some multiple of 45° the result is snapped". -/
theorem rotation_not_snapped_at_41 :
    jsAbs ((41 : ℚ) - 45 * 1) < 5 ∧
    handleRotate (-49) = 41 ∧
    (41 : ℚ) ≠ 45 * 1 := by
  have h41 : ⌊(41 : ℚ) / 45⌋ = 0 := by
    rw [Int.floor_eq_iff]
    constructor <;> norm_num
  refine ⟨?_, ?_, by norm_num⟩
  · rw [jsAbs]
    norm_num
  · have he : ((-49 : ℚ) + 90) = 41 := by norm_num
    have hrem : jsRem (41 : ℚ) 45 = 41 := by
      rw [jsRem, jsTrunc, if_pos (by norm_num : (0 : ℚ) ≤ 41 / 45), h41]
      norm_num
    have hna : ¬ jsAbs (41 : ℚ) < 5 := by
      rw [jsAbs]
      norm_num
    rw [handleRotate, he, rotSnap, hrem, if_neg hna]

/-! ## Claim C7: locked elements vs. gestures (lines 613-640, 673-695) -/

/-- `handleMouseDown(e, id, 'drag')` (lines 613-640): a locked target aborts
the gesture (line 616); during text editing a drag on a selected element is
ignored (line 618); otherwise shift-click toggles membership, a plain click
keeps the selection if the target is already in it and replaces it
otherwise (lines 620-626), and the start geometry of every member of the
new selection — locked or not — is recorded (lines 634-639).  Returns the
new selection and the recorded start states, or `none` when no gesture
starts. -/
def handleMouseDownDrag (els : List Element) (selectedIds : List String)
    (id : String) (shift : Bool) (isEditingText : Bool) :
    Option (List String × List (String × Element)) :=
  if ((els.find? (fun item => item.id = id)).map
      (fun el => el.locked.getD false)).getD false then none
  else if isEditingText && id ∈ selectedIds then none
  else
    let newSel :=
      if shift then
        if id ∈ selectedIds then selectedIds.filter (fun sid => sid ≠ id)
        else selectedIds ++ [id]
      else
        if id ∈ selectedIds then selectedIds else [id]
    some (newSel,
      newSel.filterMap (fun sid =>
        (els.find? (fun el => el.id = sid)).map (fun item => (sid, item))))

/-- The `isDragging` branch of `handleMouseMove` (lines 673-695): every
element of the selection moves to its recorded start position plus the
pointer delta (`(start.x || 0) + deltaX`); with a single-element selection
the centre additionally snaps to the page centre within 10 units
(SNAP_THRESHOLD, lines 683-692).  This branch performs no `locked` check. -/
def dragMove (els : List Element) (selectedIds : List String)
    (starts : List (String × Element)) (dx dy : ℚ) (dims : ℚ × ℚ) : List Element :=
  els.map (fun el =>
    if el.id ∉ selectedIds then el
    else
      match starts.lookup el.id with
      | none => el
      | some start =>
        let newX := start.x + dx
        let newY := start.y + dy
        let newX' :=
          if selectedIds.length = 1 ∧ jsAbs ((newX + el.width / 2) - dims.1 / 2) < 10
          then dims.1 / 2 - el.width / 2 else newX
        let newY' :=
          if selectedIds.length = 1 ∧ jsAbs ((newY + el.height / 2) - dims.2 / 2) < 10
          then dims.2 / 2 - el.height / 2 else newY
        { el with x := newX', y := newY' })

def c7A : Element :=
  { id := "a", type := .text, content := "hi", x := 0, y := 0, width := 1,
    height := 1, rotation := 0, locked := some true, style := { zIndex := 1 } }

def c7B : Element :=
  { id := "b", type := .shape, content := "c", x := 0, y := 0, width := 1,
    height := 1, rotation := 0, style := { zIndex := 0 } }

/-- Claim C7 (code bug): the spec requires a locked element's geometry to be
unchanged by any drag targeting it, and `updateSelected` (line 264) and
`handleMouseDown` (line 616) do enforce the lock — but the `isDragging`
branch of `handleMouseMove` (lines 673-695) does not.  A locked element can
sit in the selection (the layers panel selects without a lock check, line
1110); shift-clicking an unlocked element then starts a drag whose move
handler displaces the locked element too.  Here the locked element `c7A` is
selected, `handleMouseDownDrag` on the unlocked `c7B` keeps `c7A` in the
gesture, and a (10, 0) pointer delta moves the locked `c7A` from x = 0 to
x = 10. -/
theorem drag_moves_locked_element :
    c7A.locked = some true ∧
    handleMouseDownDrag [c7A, c7B] ["a"] "b" true false
      = some (["a", "b"], [("a", c7A), ("b", c7B)]) ∧
    (dragMove [c7A, c7B] ["a", "b"] [("a", c7A), ("b", c7B)] 10 0 (800, 800)).map
        (fun el => el.x)
      = [c7A.x + 10, c7B.x + 10] ∧
    c7A.x + 10 ≠ c7A.x := by
  refine ⟨rfl, by decide, ?_, by norm_num [c7A]⟩
  simp [dragMove, c7A, c7B, jsAbs, List.lookup]

/-! ## Generative-service adapter (src/unnamed/part_000, lines 186-243) -/

structure InlineData where
  mimeType : Option String := none
  data : String
deriving DecidableEq, Repr

structure GenPart where
  inlineData : Option InlineData := none
  text : Option String := none
deriving DecidableEq, Repr

/-- `response.candidates?.[0]?.content?.parts`: `none` models any absent
link of the optional chain (line 208). -/
structure GenResponse where
  parts : Option (List GenPart)
deriving DecidableEq, Repr

/-- The inline-data scan of `executeGen` (lines 211-215): the first part
with a present `inlineData` and truthy (non-empty) `data` wins. -/
def findInline : List GenPart → Option InlineData
  | [] => none
  | p :: rest =>
    match p.inlineData with
    | some d => if d.data ≠ "" then some d else findInline rest
    | none => findInline rest

/-- Line 218: `outputParts.find(p => p.text)` — the first part whose `text`
is truthy (present and non-empty). -/
def findText (ps : List GenPart) : Option String :=
  (ps.find? (fun p => p.text.getD "" != "")).bind (fun p => p.text)

/-- `executeGen` (lines 195-223) as a function of the service response to
the single request it issues: a data URL on success, otherwise the thrown
error message (the refusal text, "No content generated", or "No image data
found"). -/
def executeGen (resp : GenResponse) : Except String String :=
  match resp.parts with
  | none => .error "No content generated"
  | some ps =>
    match findInline ps with
    | some d =>
      .ok ("data:"
        ++ (if d.mimeType.getD "" = "" then "image/png" else d.mimeType.getD "")
        ++ ";base64," ++ d.data)
    | none =>
      match findText ps with
      | some t => .error t
      | none => .error "No image data found"

/-- ASCII fragment of JS `toLowerCase` (line 190). -/
def jsToLowerChar (c : Char) : Char :=
  if 'A' ≤ c ∧ c ≤ 'Z' then Char.ofNat (c.toNat + 32) else c

def jsToLower (s : String) : String := ⟨s.data.map jsToLowerChar⟩

/-- Character-list prefix test (model of the substring machinery behind JS
`String.prototype.includes`). -/
def startsWithChars : List Char → List Char → Bool
  | [], _ => true
  | _ :: _, [] => false
  | a :: as, b :: bs => a == b && startsWithChars as bs

/-- Substring occurrence anywhere in the character list. -/
def hasSubChars (pat : List Char) : List Char → Bool
  | [] => startsWithChars pat []
  | c :: rest => startsWithChars pat (c :: rest) || hasSubChars pat rest

/-- JS `String.prototype.includes`: substring containment. -/
def strIncludes (s pat : String) : Bool := hasSubChars pat.data s.data

/-- The primary framing (line 227). -/
def strictPrompt (p : String) : String :=
  "Professional photography, " ++ p
    ++ ". Cinematic lighting, 8k resolution, high quality, highly detailed, text-free background."

/-- The fallback framing (line 236). -/
def fallbackPrompt (p : String) : String :=
  "Artistic illustration style, " ++ p
    ++ ". Soft colors, minimalist, abstract, high quality, no text."

/-- `generateImage` (lines 186-243), the network modelled as the responses
the service returns to the first and (if reached) second request.  The
result is paired with the list of prompts actually sent outbound, in order.
The 4:5→3:4 aspect-ratio mapping (line 203) only shapes the request's
imageConfig and is irrelevant to the control flow modelled here. -/
def generateImage (prompt : String) (referenceImages : List String)
    (resp1 resp2 : GenResponse) : Except String String × List String :=
  if prompt = "" then (.ok "", [])
  else if strIncludes (jsToLower prompt) "user provided background" then
    (.ok (referenceImages.headD ""), [])
  else
    match executeGen resp1 with
    | .ok url => (.ok url, [strictPrompt prompt])
    | .error _ =>
      match executeGen resp2 with
      | .ok url => (.ok url, [strictPrompt prompt, fallbackPrompt prompt])
      | .error _ =>
        (.error "Model refused to generate image. Try a simpler prompt.",
         [strictPrompt prompt, fallbackPrompt prompt])

/-- A text-only refusal (lines 217-221): parts present, no part carries
non-empty inline image data, some part carries non-empty text. -/
def isTextOnlyRefusal (resp : GenResponse) : Bool :=
  match resp.parts with
  | none => false
  | some ps =>
    ps.all (fun p => p.inlineData.all (fun d => d.data == "")) &&
    ps.any (fun p => p.text.getD "" != "")

/-- Any failing attempt (thrown error in `executeGen`). -/
def genFails (resp : GenResponse) : Bool :=
  match executeGen resp with
  | .error _ => true
  | .ok _ => false

lemma findInline_of_all_empty (ps : List GenPart)
    (h : ps.all (fun p => p.inlineData.all (fun d => d.data == "")) = true) :
    findInline ps = none := by
  induction ps with
  | nil => rfl
  | cons p rest ih =>
    simp only [List.all_cons, Bool.and_eq_true] at h
    rw [findInline]
    cases hd : p.inlineData with
    | none => exact ih h.2
    | some d =>
      have hdata : d.data = "" := by
        have hh := h.1
        rw [hd] at hh
        simpa [Option.all] using hh
      show (if d.data ≠ "" then some d else findInline rest) = none
      rw [hdata]
      simpa using ih h.2

lemma refusal_fails (resp : GenResponse) (h : isTextOnlyRefusal resp = true) :
    genFails resp = true := by
  cases hp : resp.parts with
  | none => rw [isTextOnlyRefusal, hp] at h; exact absurd h (by simp)
  | some ps =>
    rw [isTextOnlyRefusal, hp, Bool.and_eq_true] at h
    have hfi := findInline_of_all_empty ps h.1
    cases hft : findText ps with
    | none => simp [genFails, executeGen, hp, hfi, hft]
    | some t => simp [genFails, executeGen, hp, hfi, hft]

/-- Claim C6: a `generateImage` call whose primary attempt returns a
text-only refusal and whose fallback attempt also fails issues exactly two
outbound requests — the primary with the "Professional photography" framing
and one retry with the "Artistic illustration" framing — and resolves to the
single GenerationFailed error ("Model refused to generate image. Try a
simpler prompt."); no third attempt exists in the control flow. -/
theorem generateImage_two_attempts (prompt : String) (refs : List String)
    (resp1 resp2 : GenResponse)
    (hne : prompt ≠ "")
    (hnb : strIncludes (jsToLower prompt) "user provided background" = false)
    (h1 : isTextOnlyRefusal resp1 = true)
    (h2 : genFails resp2 = true) :
    generateImage prompt refs resp1 resp2
      = (.error "Model refused to generate image. Try a simpler prompt.",
         [strictPrompt prompt, fallbackPrompt prompt]) := by
  have hf1 := refusal_fails resp1 h1
  have he1 : ∃ e, executeGen resp1 = .error e := by
    unfold genFails at hf1
    cases h : executeGen resp1 with
    | error e => exact ⟨e, rfl⟩
    | ok v => rw [h] at hf1; simp at hf1
  have he2 : ∃ e, executeGen resp2 = .error e := by
    unfold genFails at h2
    cases h : executeGen resp2 with
    | error e => exact ⟨e, rfl⟩
    | ok v => rw [h] at h2; simp at h2
  obtain ⟨e1, he1⟩ := he1
  obtain ⟨e2, he2⟩ := he2
  simp [generateImage, hne, hnb, he1, he2]

def c6Refusal : GenResponse :=
  { parts := some [{ text := some "I cannot generate that image." }] }

theorem generateImage_two_attempts_witness :
    generateImage "neon city at night" [] c6Refusal c6Refusal
      = (.error "Model refused to generate image. Try a simpler prompt.",
         [strictPrompt "neon city at night", fallbackPrompt "neon city at night"]) :=
  generateImage_two_attempts "neon city at night" [] c6Refusal c6Refusal
    (by decide) (by decide) (by decide) (by decide)

/-- Claim C10: `generateImage` resolves to the empty string, issuing no
outbound request and raising no error, whenever the prompt is empty
(line 187: `if (!prompt) return ""`), and likewise whenever the prompt
contains "user provided background" case-insensitively while the
reference-image list is empty (lines 190-192: `return referenceImages[0]
|| ""`). -/
theorem generateImage_short_circuit (prompt : String) (refs : List String)
    (resp1 resp2 : GenResponse)
    (h : prompt = "" ∨
      (strIncludes (jsToLower prompt) "user provided background" = true ∧ refs = [])) :
    generateImage prompt refs resp1 resp2 = (.ok "", []) := by
  rcases h with h | ⟨hc, hr⟩
  · simp [generateImage, h]
  · by_cases hp : prompt = ""
    · simp [generateImage, hp]
    · simp [generateImage, hp, hc, hr]

theorem generateImage_short_circuit_witness :
    generateImage "Use the USER PROVIDED BACKGROUND for this banner" []
      c6Refusal c6Refusal = (.ok "", []) :=
  generateImage_short_circuit "Use the USER PROVIDED BACKGROUND for this banner" []
    c6Refusal c6Refusal (Or.inr ⟨by decide, rfl⟩)

/-! ## Claim C2: generateBannerPlan (src/unnamed/part_000, lines 111-182) -/

/-- The global regex replace `text.replace(/```json\n?|\n?```/g, "")`
(line 176): scan left to right; at each position try the alternatives in
order (```json with an optional trailing newline, then ``` with an optional
leading newline), skip a match and continue after it, otherwise keep the
character.  The fuel argument (initially the input length, an upper bound
on the number of steps since every step consumes at least one character)
makes the recursion structural. -/
def stripFencesAux : ℕ → List Char → List Char
  | 0, l => l
  | _, [] => []
  | fuel + 1, c :: rest =>
    if startsWithChars "```json\n".data (c :: rest) then stripFencesAux fuel (rest.drop 7)
    else if startsWithChars "```json".data (c :: rest) then stripFencesAux fuel (rest.drop 6)
    else if startsWithChars "\n```".data (c :: rest) then stripFencesAux fuel (rest.drop 3)
    else if startsWithChars "```".data (c :: rest) then stripFencesAux fuel (rest.drop 2)
    else c :: stripFencesAux fuel rest

def stripFences (s : String) : String := ⟨stripFencesAux s.data.length s.data⟩

/-- ASCII whitespace, for the `.trim()` model. -/
def isWsChar (c : Char) : Bool := c == ' ' || c == '\n' || c == '\t' || c == '\r'

/-- JS `String.prototype.trim` (line 176), modelled for ASCII whitespace. -/
def jsTrim (s : String) : String :=
  ⟨((s.data.dropWhile isWsChar).reverse.dropWhile isWsChar).reverse⟩

/-- JSON values as produced by the host `JSON.parse`. -/
inductive Json where
  | null
  | bool (b : Bool)
  | num (n : ℤ)
  | str (s : String)
  | arr (elems : List Json)
  | obj (fields : List (String × Json))

def skipWs : List Char → List Char
  | [] => []
  | c :: rest => if isWsChar c then skipWs rest else c :: rest

def digitsAux : List Char → ℕ → ℕ × List Char
  | [], acc => (acc, [])
  | c :: rest, acc =>
    if c.isDigit then digitsAux rest (acc * 10 + (c.toNat - 48)) else (acc, c :: rest)

def parseNum : List Char → Option (Json × List Char)
  | [] => none
  | '-' :: rest =>
    match rest with
    | c :: _ =>
      if c.isDigit then
        match digitsAux rest 0 with
        | (n, r) => some (.num (-(n : ℤ)), r)
      else none
    | [] => none
  | c :: rest =>
    if c.isDigit then
      match digitsAux (c :: rest) 0 with
      | (n, r) => some (.num (n : ℤ), r)
    else none

/-- String body after the opening quote, with the simple escapes. -/
def parseStrChars : List Char → Option (List Char × List Char)
  | [] => none
  | '"' :: rest => some ([], rest)
  | '\\' :: c :: rest =>
    (parseStrChars rest).map (fun p =>
      ((if c == 'n' then '\n' else if c == 't' then '\t' else if c == 'r' then '\r' else c)
        :: p.1, p.2))
  | ['\\'] => none
  | c :: rest => (parseStrChars rest).map (fun p => (c :: p.1, p.2))

mutual

def parseVal : ℕ → List Char → Option (Json × List Char)
  | 0, _ => none
  | fuel + 1, l =>
    match skipWs l with
    | [] => none
    | '{' :: rest => parseObjBody fuel (skipWs rest)
    | '[' :: rest => parseArrBody fuel (skipWs rest)
    | '"' :: rest => (parseStrChars rest).map (fun p => (.str ⟨p.1⟩, p.2))
    | 't' :: rest =>
      if startsWithChars "rue".data rest then some (.bool true, rest.drop 3) else none
    | 'f' :: rest =>
      if startsWithChars "alse".data rest then some (.bool false, rest.drop 4) else none
    | 'n' :: rest =>
      if startsWithChars "ull".data rest then some (.null, rest.drop 3) else none
    | l' => parseNum l'

def parseObjBody : ℕ → List Char → Option (Json × List Char)
  | 0, _ => none
  | fuel + 1, l =>
    match skipWs l with
    | '}' :: rest => some (.obj [], rest)
    | l' => (parseMembers fuel l').map (fun p => (.obj p.1, p.2))

def parseMembers : ℕ → List Char → Option (List (String × Json) × List Char)
  | 0, _ => none
  | fuel + 1, l =>
    match skipWs l with
    | '"' :: rest =>
      match parseStrChars rest with
      | none => none
      | some (k, r1) =>
        match skipWs r1 with
        | ':' :: r2 =>
          match parseVal fuel r2 with
          | none => none
          | some (v, r3) =>
            match skipWs r3 with
            | ',' :: r4 => (parseMembers fuel r4).map (fun p => ((⟨k⟩, v) :: p.1, p.2))
            | '}' :: r4 => some ([(⟨k⟩, v)], r4)
            | _ => none
        | _ => none
    | _ => none

def parseArrBody : ℕ → List Char → Option (Json × List Char)
  | 0, _ => none
  | fuel + 1, l =>
    match skipWs l with
    | ']' :: rest => some (.arr [], rest)
    | l' => (parseItems fuel l').map (fun p => (.arr p.1, p.2))

def parseItems : ℕ → List Char → Option (List Json × List Char)
  | 0, _ => none
  | fuel + 1, l =>
    match parseVal fuel l with
    | none => none
    | some (v, r1) =>
      match skipWs r1 with
      | ',' :: r2 => (parseItems fuel r2).map (fun p => (v :: p.1, p.2))
      | ']' :: r2 => some ([v], r2)
      | _ => none

end

/-- Model of the host `JSON.parse` over the JSON core (objects, arrays,
strings with simple escapes, integer numbers, literals); `none` models a
thrown SyntaxError, including trailing garbage.  The fuel `3·length + 3`
over-approximates the recursion depth (at most three calls per consumed
character). -/
def jsonParse (s : String) : Option Json :=
  match parseVal (3 * s.data.length + 3) s.data with
  | some (j, rest) => if skipWs rest = [] then some j else none
  | none => none

/-- `generateBannerPlan`'s response handling (lines 171-182): reject a
missing or empty text (`!response.text`), strip code fences, trim, and
return `JSON.parse`'s value — the `as BannerPlan` cast at line 177 is a
purely static assertion, so no runtime validation of the plan shape is
performed (the schema at lines 128-167 is only sent to the service inside
the request config). -/
def generateBannerPlan (text : Option String) : Except String Json :=
  match text with
  | none => .error "No text returned from Gemini"
  | some t =>
    if t = "" then .error "No text returned from Gemini"
    else
      match jsonParse (jsTrim (stripFences t)) with
      | some j => .ok j
      | none => .error "Invalid JSON response from AI"

/-- Field lookup on a parsed JSON object. -/
def jsonHasField (j : Json) (k : String) : Bool :=
  match j with
  | .obj fs => fs.any (fun f => f.1 == k)
  | _ => false

/-- Claim C2 (amended): after stripping code-fence wrapping and trimming,
`generateBannerPlan` rejects exactly the responses whose text fails to
parse as JSON (with the "Invalid JSON response from AI" error); every
response that parses as JSON is returned as the plan as-is, with no
validation of the plan shape — in particular a parsed object with no
`additional_banners` field is accepted, not rejected with a
ValidationError. -/
theorem generateBannerPlan_no_validation (t : String) (hne : t ≠ "") :
    (∀ j, jsonParse (jsTrim (stripFences t)) = some j →
      generateBannerPlan (some t) = .ok j) ∧
    (jsonParse (jsTrim (stripFences t)) = none →
      generateBannerPlan (some t) = .error "Invalid JSON response from AI") := by
  constructor
  · intro j hj
    simp [generateBannerPlan, hne, hj]
  · intro hj
    simp [generateBannerPlan, hne, hj]

theorem generateBannerPlan_no_validation_witness :
    generateBannerPlan (some "```json\n{}\n```") = .ok (.obj []) :=
  (generateBannerPlan_no_validation "```json\n{}\n```" (by decide)).1 (.obj []) rfl

/-- Claim C2 counterexample: the response text `{}` (here wrapped in a code
fence, which is stripped) parses as JSON, has no `additional_banners`
field, and is still accepted by `generateBannerPlan` as the plan — it is
not rejected with a ValidationError, refuting "a response that parses as
JSON but has no additional_banners field fails with ValidationError and is
never accepted as a partial plan". -/
theorem generateBannerPlan_missing_field_accepted :
    generateBannerPlan (some "```json\n{}\n```") = .ok (.obj []) ∧
    jsonHasField (.obj []) "additional_banners" = false :=
  ⟨rfl, rfl⟩

/-! ## Claim C8: changeZIndex (lines 320-366) and paint order (line 806) -/

/-- The comparator `(a, b) => a.style.zIndex - b.style.zIndex` of lines 325
and 806, as the ordering it induces.  (The `|| 0` guards at line 325 are
no-ops because `zIndex` is always present.) -/
def zle (a b : Element) : Prop := a.style.zIndex ≤ b.style.zIndex

instance : DecidableRel zle := fun a b =>
  inferInstanceAs (Decidable (a.style.zIndex ≤ b.style.zIndex))

instance : IsTotal Element zle := ⟨fun a b => le_total a.style.zIndex b.style.zIndex⟩

instance : IsTrans Element zle := ⟨fun _ _ _ hab hbc => le_trans hab hbc⟩

/-- Strict version of the comparator ordering. -/
def zlt (a b : Element) : Prop := a.style.zIndex < b.style.zIndex

instance : IsAntisymm Element zlt := ⟨fun _ _ h1 h2 => absurd h2 (lt_asymm h1)⟩

/-- The stable ascending sort by `zIndex` used both by `changeZIndex`
(line 325) and by the rasterizer's paint order (line 806).  ECMAScript
`Array.prototype.sort` is stable, and stable sorting under a total preorder
is unique, so `List.insertionSort` (which keeps the relative order of
tied elements) is the model. -/
def sortedByZ (l : List Element) : List Element := List.insertionSort zle l

/-- JS `Record` assignment `m[k] = v` on an association-list model:
overwrite the key in place if present, else append. -/
def jsSet (m : List (String × ℚ)) (k : String) (v : ℚ) : List (String × ℚ) :=
  if (m.lookup k).isSome then m.map (fun e => if e.1 = k then (k, v) else e)
  else m ++ [(k, v)]

/-- The normalisation loop of lines 328-331:
`sorted.forEach((el, i) => { idToZ[el.id] = (i + 1) * 10 })`. -/
def buildZMapAux : List Element → ℕ → List (String × ℚ) → List (String × ℚ)
  | [], _, m => m
  | el :: rest, i, m => buildZMapAux rest (i + 1) (jsSet m el.id (((i : ℚ) + 1) * 10))

def buildZMap (l : List Element) : List (String × ℚ) := buildZMapAux l 0 []

inductive ZMove where
  | front | back | forward | backward
deriving DecidableEq, Repr

def defaultElement : Element :=
  { id := "", type := .text, content := "", x := 0, y := 0, width := 0,
    height := 0, rotation := 0, style := { zIndex := 0 } }

/-- The final map over `elements` (lines 356-362): replace each element's
`zIndex` by its entry in the id-to-z record, keeping the old value when the
entry is absent (`idToZ[el.id] !== undefined ? idToZ[el.id] : el.style.zIndex`). -/
def applyZ (m : List (String × ℚ)) (el : Element) : Element :=
  { el with style := { el.style with zIndex := (m.lookup el.id).getD el.style.zIndex } }

/-- The id-to-z record after normalisation and the requested move
(lines 324-354). -/
def zmapFor (els : List Element) (id : String) (ty : ZMove) : List (String × ℚ) :=
  let sorted := sortedByZ els
  let m0 := buildZMap sorted
  let currentZ : Option ℚ := m0.lookup id
  let currentIndex : ℤ :=
    (sorted.findIdx? (fun e => e.id == id)).elim (-1) (fun i => (i : ℤ))
  let canForward : Bool := decide (currentIndex < (sorted.length : ℤ) - 1)
  let canBackward : Bool := decide ((0 : ℤ) < currentIndex)
  match ty with
  | .front => jsSet m0 id (((sorted.length : ℚ) + 1) * 10)
  | .back => jsSet m0 id 0
  | .forward =>
    if canForward then
      let nextEl := sorted.getD (currentIndex + 1).toNat defaultElement
      jsSet (jsSet m0 id ((m0.lookup nextEl.id).getD 0)) nextEl.id (currentZ.getD 0)
    else m0
  | .backward =>
    if canBackward then
      let prevEl := sorted.getD (currentIndex - 1).toNat defaultElement
      jsSet (jsSet m0 id ((m0.lookup prevEl.id).getD 0)) prevEl.id (currentZ.getD 0)
    else m0

/-- `changeZIndex` (lines 320-366): no-op on an empty selection; otherwise
normalise all z-indices to (position + 1) · 10 by current paint order,
apply the requested move for `selectedIds[0]` (front gets (length + 1) · 10,
back gets 0, forward/backward swap with the paint-order neighbour when one
exists), replace every element's zIndex from the record, and commit one
history snapshot.  `findIndex` returning -1 for an absent id is kept
(`currentIndex = -1`); the `getD 0` fallbacks model record reads that are
always present in the code's reachable states. -/
def changeZIndex (st : EditorState) (ty : ZMove) : EditorState :=
  match st.selectedIds with
  | [] => st
  | id :: _ =>
    saveToHistory
      { st with scene := { st.scene with
          elements := st.scene.elements.map (applyZ (zmapFor st.scene.elements id ty)) } }
      { st.scene with
        elements := st.scene.elements.map (applyZ (zmapFor st.scene.elements id ty)) }

lemma lookup_cons (a : String) (e : String × ℚ) (l : List (String × ℚ)) :
    List.lookup a (e :: l) = if a = e.1 then some e.2 else List.lookup a l := by
  by_cases h : a = e.1
  · rw [if_pos h, List.lookup]
    have hb : (a == e.1) = true := beq_iff_eq.mpr h
    rw [hb]
  · rw [if_neg h, List.lookup]
    have hb : (a == e.1) = false := beq_eq_false_iff_ne.mpr h
    rw [hb]

lemma lookup_map_replace_self (m : List (String × ℚ)) (k : String) (v : ℚ)
    (h : (m.lookup k).isSome) :
    (m.map (fun e => if e.1 = k then (k, v) else e)).lookup k = some v := by
  induction m with
  | nil => simp [List.lookup] at h
  | cons e rest ih =>
    rw [lookup_cons] at h
    by_cases he : e.1 = k
    · simp only [List.map_cons, if_pos he, lookup_cons]
      simp
    · have hh : (rest.lookup k).isSome := by
        rw [if_neg (fun hc => he hc.symm)] at h
        exact h
      simp only [List.map_cons, if_neg he, lookup_cons,
        if_neg (fun hc : k = e.1 => he hc.symm)]
      exact ih hh

lemma lookup_map_replace_ne (m : List (String × ℚ)) (k k' : String) (v : ℚ)
    (h : k' ≠ k) :
    (m.map (fun e => if e.1 = k then (k, v) else e)).lookup k' = m.lookup k' := by
  induction m with
  | nil => rfl
  | cons e rest ih =>
    by_cases he : e.1 = k
    · simp only [List.map_cons, if_pos he, lookup_cons, if_neg h,
        if_neg (he ▸ h : k' ≠ e.1)]
      exact ih
    · simp only [List.map_cons, if_neg he, lookup_cons]
      by_cases he' : k' = e.1
      · rw [if_pos he', if_pos he']
      · rw [if_neg he', if_neg he']
        exact ih

lemma lookup_append_singleton_self (m : List (String × ℚ)) (k : String) (v : ℚ)
    (h : m.lookup k = none) :
    (m ++ [(k, v)]).lookup k = some v := by
  induction m with
  | nil => simp [List.lookup]
  | cons e rest ih =>
    rw [lookup_cons] at h
    by_cases he : k = e.1
    · rw [if_pos he] at h
      exact absurd h (by simp)
    · rw [if_neg he] at h
      rw [List.cons_append, lookup_cons, if_neg he]
      exact ih h

lemma lookup_append_singleton_ne (m : List (String × ℚ)) (k k' : String) (v : ℚ)
    (h : k' ≠ k) :
    (m ++ [(k, v)]).lookup k' = m.lookup k' := by
  induction m with
  | nil =>
    rw [List.nil_append, lookup_cons, if_neg h]
  | cons e rest ih =>
    rw [List.cons_append, lookup_cons, lookup_cons]
    by_cases he : k' = e.1
    · rw [if_pos he, if_pos he]
    · rw [if_neg he, if_neg he]
      exact ih

lemma lookup_jsSet_self (m : List (String × ℚ)) (k : String) (v : ℚ) :
    (jsSet m k v).lookup k = some v := by
  rw [jsSet]
  by_cases h : (m.lookup k).isSome
  · rw [if_pos h]
    exact lookup_map_replace_self m k v h
  · rw [if_neg h]
    exact lookup_append_singleton_self m k v (by
      cases hm : m.lookup k
      · rfl
      · rw [hm] at h; simp at h)

lemma lookup_jsSet_ne (m : List (String × ℚ)) (k k' : String) (v : ℚ) (h : k' ≠ k) :
    (jsSet m k v).lookup k' = m.lookup k' := by
  rw [jsSet]
  by_cases hs : (m.lookup k).isSome
  · rw [if_pos hs]
    exact lookup_map_replace_ne m k k' v h
  · rw [if_neg hs]
    exact lookup_append_singleton_ne m k k' v h

lemma buildZMapAux_lookup_notmem (l : List Element) (x : String)
    (hx : ∀ el ∈ l, x ≠ el.id) :
    ∀ i m, (buildZMapAux l i m).lookup x = m.lookup x := by
  induction l with
  | nil => intro i m; rfl
  | cons a rest ih =>
    intro i m
    show (buildZMapAux rest (i + 1) (jsSet m a.id (((i : ℚ) + 1) * 10))).lookup x
      = m.lookup x
    rw [ih (fun el hel => hx el (List.mem_cons_of_mem a hel)) (i + 1)
      (jsSet m a.id (((i : ℚ) + 1) * 10))]
    exact lookup_jsSet_ne _ _ _ _ (hx a (List.mem_cons_self a rest))

lemma buildZMapAux_lookup_get :
    ∀ (l : List Element), (l.map (fun e => e.id)).Nodup →
      ∀ (j : ℕ) (hj : j < l.length) (i : ℕ) (m : List (String × ℚ)),
        (buildZMapAux l i m).lookup (l.get ⟨j, hj⟩).id
          = some ((((i + j : ℕ) : ℚ) + 1) * 10)
  | [], _, j, hj, _, _ => absurd hj (Nat.not_lt_zero j)
  | a :: rest, hnd, j, hj, i, m => by
    rw [List.map_cons, List.nodup_cons] at hnd
    cases j with
    | zero =>
      show (buildZMapAux rest (i + 1) (jsSet m a.id (((i : ℚ) + 1) * 10))).lookup a.id
        = some ((((i + 0 : ℕ) : ℚ) + 1) * 10)
      have hnot : ∀ el ∈ rest, a.id ≠ el.id := by
        intro el hel heq
        exact hnd.1 (heq ▸ List.mem_map_of_mem (fun e => e.id) hel)
      rw [buildZMapAux_lookup_notmem rest a.id hnot (i + 1) _, lookup_jsSet_self]
      norm_num
    | succ j' =>
      have hj' : j' < rest.length := by
        simpa [Nat.succ_lt_succ_iff] using hj
      show (buildZMapAux rest (i + 1) (jsSet m a.id (((i : ℚ) + 1) * 10))).lookup
          (rest.get ⟨j', hj'⟩).id = some ((((i + (j' + 1) : ℕ) : ℚ) + 1) * 10)
      have harith : i + (j' + 1) = (i + 1) + j' := by omega
      rw [harith]
      exact buildZMapAux_lookup_get rest hnd.2 j' hj' (i + 1)
        (jsSet m a.id (((i : ℚ) + 1) * 10))

lemma buildZMap_lookup (l : List Element) (hnd : (l.map (fun e => e.id)).Nodup)
    (j : ℕ) (hj : j < l.length) :
    (buildZMap l).lookup (l.get ⟨j, hj⟩).id = some (((j : ℚ) + 1) * 10) := by
  have h := buildZMapAux_lookup_get l hnd j hj 0 []
  simpa using h

lemma sortedByZ_perm (l : List Element) : List.Perm (sortedByZ l) l :=
  List.perm_insertionSort zle l

lemma sortedByZ_sorted (l : List Element) : List.Sorted zle (sortedByZ l) :=
  List.sorted_insertionSort zle l

lemma eq_of_id_eq {l : List Element} (hnd : (l.map (fun e => e.id)).Nodup)
    {a b : Element} (ha : a ∈ l) (hb : b ∈ l) (hid : a.id = b.id) : a = b :=
  List.inj_on_of_nodup_map hnd ha hb hid

lemma sorted_zle_getLast :
    ∀ (l : List Element), List.Sorted zle l → ∀ (a : Element), a ∈ l →
      ∀ (hne : l ≠ []), zle a (l.getLast hne)
  | [], _, a, ha, _ => absurd ha (List.not_mem_nil a)
  | [b], _, a, ha, _ => by
    have hab : a = b := by simpa using ha
    subst hab
    exact le_refl a.style.zIndex
  | b :: c :: t, hs, a, ha, _ => by
    have hne' : (c :: t) ≠ [] := by simp
    show zle a ((c :: t).getLast hne')
    rcases List.mem_cons.mp ha with hab | harest
    · subst hab
      exact List.rel_of_sorted_cons hs _ (List.getLast_mem hne')
    · exact sorted_zle_getLast (c :: t) hs.of_cons a harest hne'

lemma sorted_getLast?_of_strict_max (l : List Element)
    (hnd : (l.map (fun e => e.id)).Nodup) (a : Element) (ha : a ∈ l)
    (hmax : ∀ b ∈ l, b.id ≠ a.id → zlt b a) :
    (sortedByZ l).getLast? = some a := by
  have hperm := sortedByZ_perm l
  have hsorted := sortedByZ_sorted l
  have has : a ∈ sortedByZ l := hperm.mem_iff.mpr ha
  have hsne : sortedByZ l ≠ [] := by
    intro h
    rw [h] at has
    exact List.not_mem_nil a has
  rw [List.getLast?_eq_getLast_of_ne_nil hsne]
  have hlast_mem_l : (sortedByZ l).getLast hsne ∈ l :=
    hperm.mem_iff.mp (List.getLast_mem hsne)
  by_cases hid : ((sortedByZ l).getLast hsne).id = a.id
  · rw [eq_of_id_eq hnd hlast_mem_l ha hid]
  · exfalso
    have hlt : zlt ((sortedByZ l).getLast hsne) a := hmax _ hlast_mem_l hid
    have hle : zle a ((sortedByZ l).getLast hsne) :=
      sorted_zle_getLast _ hsorted a has hsne
    exact lt_irrefl _ (lt_of_lt_of_le hlt hle)

lemma sorted_zlt_of_nodup_z (l : List Element) (hs : List.Sorted zle l)
    (hnd : (l.map (fun e => e.style.zIndex)).Nodup) :
    List.Sorted zlt l := by
  have hne : List.Pairwise (fun a b : Element => a.style.zIndex ≠ b.style.zIndex) l := by
    rw [List.Nodup, List.pairwise_map] at hnd
    exact hnd
  exact (hs.and hne).imp (fun h => lt_of_le_of_ne h.1 h.2)

lemma findIdx?_shift (p : Element → Bool) :
    ∀ (l : List Element) (i : ℕ),
      List.findIdx? p l i = (List.findIdx? p l).map (fun j => j + i)
  | [], _ => rfl
  | a :: rest, i => by
    rw [List.findIdx?, List.findIdx?]
    by_cases h : p a
    · rw [if_pos h, if_pos h]
      simp
    · rw [if_neg h, if_neg h]
      rw [findIdx?_shift p rest (i + 1), findIdx?_shift p rest (0 + 1), Option.map_map]
      rcases List.findIdx? p rest with _ | j
      · rfl
      · show some (j + (i + 1)) = some ((j + (0 + 1)) + i)
        congr 1
        omega

lemma findIdx?_eq_of_unique_last :
    ∀ (l : List Element), (l.map (fun e => e.id)).Nodup → ∀ (hne : l ≠ []) (tid : String),
      (l.getLast hne).id = tid →
      List.findIdx? (fun e => e.id == tid) l = some (l.length - 1)
  | [], _, hne, _, _ => absurd rfl hne
  | [a], _, _, tid, hlast => by
    have hid : a.id = tid := hlast
    rw [List.findIdx?, if_pos (beq_iff_eq.mpr hid)]
    rfl
  | a :: b :: t, hnd, _, tid, hlast => by
    have hne' : (b :: t) ≠ [] := by simp
    have hlast' : ((b :: t).getLast hne').id = tid := hlast
    have hrec := findIdx?_eq_of_unique_last (b :: t)
      (by rw [List.map_cons, List.nodup_cons] at hnd; exact hnd.2) hne' tid hlast'
    have hmem : (b :: t).getLast hne' ∈ b :: t := List.getLast_mem hne'
    have hane : a.id ≠ tid := by
      intro heq
      rw [List.map_cons, List.nodup_cons] at hnd
      refine hnd.1 ?_
      rw [heq, ← hlast']
      exact List.mem_map_of_mem (fun e => e.id) hmem
    rw [List.findIdx?, if_neg (by simpa using hane),
      findIdx?_shift (fun e => e.id == tid) (b :: t) (0 + 1), hrec]
    rfl

lemma changeZIndex_elements (st : EditorState) (ty : ZMove) (tid : String)
    (rest : List String) (hsel : st.selectedIds = tid :: rest) :
    (changeZIndex st ty).scene.elements
      = st.scene.elements.map (applyZ (zmapFor st.scene.elements tid ty)) := by
  simp only [changeZIndex, hsel]
  rfl

lemma zmapFor_front (els : List Element) (id : String) :
    zmapFor els id .front
      = jsSet (buildZMap (sortedByZ els)) id ((((sortedByZ els).length : ℚ) + 1) * 10) :=
  rfl

lemma zmapFor_forward_topmost (els : List Element)
    (hnd : (els.map (fun e => e.id)).Nodup) (tid : String)
    (hne : sortedByZ els ≠ [])
    (hlast : ((sortedByZ els).getLast hne).id = tid) :
    zmapFor els tid .forward = buildZMap (sortedByZ els) := by
  have hnds : ((sortedByZ els).map (fun e => e.id)).Nodup :=
    (((sortedByZ_perm els).map (fun e => e.id)).nodup_iff).mpr hnd
  have hidx := findIdx?_eq_of_unique_last (sortedByZ els) hnds hne tid hlast
  have hlen : 1 ≤ (sortedByZ els).length := by
    cases h : sortedByZ els with
    | nil => exact absurd h hne
    | cons a t => simp [h]
  have hcond :
      ¬ ((((sortedByZ els).length - 1 : ℕ) : ℤ) < ((sortedByZ els).length : ℤ) - 1) := by
    omega
  simp only [zmapFor, hidx, Option.elim]
  simp [hcond]

lemma applyZ_id (m : List (String × ℚ)) (el : Element) : (applyZ m el).id = el.id := rfl

/-- Claim C8: `reorder(id, 'front')` first normalises all z-indices to the
dense sequence 10, 20, ... following the stable sort by current z-index
(ascending, ties by insertion order), then gives the target
(length + 1) · 10, strictly above every other element — so the target's id
comes last in the paint order of the result, regardless of prior z-index
values; and `forward` applied when the target is already topmost in paint
order leaves the paint order (the id sequence of the z-sorted list)
unchanged. -/
theorem changeZIndex_front_forward (st : EditorState) (tid : String)
    (rest : List String) (tel : Element)
    (hsel : st.selectedIds = tid :: rest)
    (hnd : (st.scene.elements.map (fun e => e.id)).Nodup)
    (htel : tel ∈ st.scene.elements)
    (htid : tel.id = tid) :
    ((changeZIndex st .front).scene.elements.map (fun e => e.id)
        = st.scene.elements.map (fun e => e.id)) ∧
    (∀ el ∈ (changeZIndex st .front).scene.elements, el.id = tid →
        el.style.zIndex = ((st.scene.elements.length : ℚ) + 1) * 10) ∧
    (∀ el ∈ (changeZIndex st .front).scene.elements, el.id ≠ tid →
        el.style.zIndex < ((st.scene.elements.length : ℚ) + 1) * 10 ∧
        ∃ j : ℕ, ∃ hj : j < (sortedByZ st.scene.elements).length,
          el.style.zIndex = ((j : ℚ) + 1) * 10 ∧
          ((sortedByZ st.scene.elements).get ⟨j, hj⟩).id = el.id) ∧
    ((sortedByZ (changeZIndex st .front).scene.elements).getLast?.map (fun e => e.id)
        = some tid) ∧
    (∀ hne : sortedByZ st.scene.elements ≠ [],
      ((sortedByZ st.scene.elements).getLast hne).id = tid →
      (sortedByZ (changeZIndex st .forward).scene.elements).map (fun e => e.id)
        = (sortedByZ st.scene.elements).map (fun e => e.id)) := by
  have hperm := sortedByZ_perm st.scene.elements
  have hnds : ((sortedByZ st.scene.elements).map (fun e => e.id)).Nodup :=
    ((hperm.map (fun e => e.id)).nodup_iff).mpr hnd
  have hlen_eq : (sortedByZ st.scene.elements).length = st.scene.elements.length :=
    hperm.length_eq
  have hfr := changeZIndex_elements st .front tid rest hsel
  -- z-value of the target under the front map
  have hlook_t : ∀ x : String, x = tid →
      ((zmapFor st.scene.elements tid .front).lookup x)
        = some ((((sortedByZ st.scene.elements).length : ℚ) + 1) * 10) := by
    intro x hx
    rw [zmapFor_front, hx]
    exact lookup_jsSet_self _ _ _
  -- z-value of every other element under the front map
  have hlook_o : ∀ el ∈ st.scene.elements, el.id ≠ tid →
      ∃ j : ℕ, ∃ hj : j < (sortedByZ st.scene.elements).length,
        ((zmapFor st.scene.elements tid .front).lookup el.id)
          = some (((j : ℚ) + 1) * 10) ∧
        ((sortedByZ st.scene.elements).get ⟨j, hj⟩).id = el.id := by
    intro el hel hne
    have hmem_s : el ∈ sortedByZ st.scene.elements := hperm.mem_iff.mpr hel
    obtain ⟨⟨j, hj⟩, hg⟩ := List.mem_iff_get.mp hmem_s
    refine ⟨j, hj, ?_, by rw [hg]⟩
    rw [zmapFor_front, lookup_jsSet_ne _ _ _ _ hne, ← hg]
    exact buildZMap_lookup _ hnds j hj
  have hstrict : ∀ j : ℕ, j < (sortedByZ st.scene.elements).length →
      ((j : ℚ) + 1) * 10 < ((st.scene.elements.length : ℚ) + 1) * 10 := by
    intro j hj
    have hjc : (j : ℚ) < (st.scene.elements.length : ℚ) := by
      exact_mod_cast hlen_eq ▸ hj
    nlinarith
  have hidcol : (changeZIndex st .front).scene.elements.map (fun e => e.id)
      = st.scene.elements.map (fun e => e.id) := by
    rw [hfr, List.map_map]
    rfl
  refine ⟨hidcol, ?_, ?_, ?_, ?_⟩
  · intro el hel hidel
    rw [hfr] at hel
    obtain ⟨el0, hel0, rfl⟩ := List.mem_map.mp hel
    have hid0 : el0.id = tid := hidel
    show ((zmapFor st.scene.elements tid .front).lookup el0.id).getD el0.style.zIndex
      = ((st.scene.elements.length : ℚ) + 1) * 10
    rw [hlook_t el0.id hid0, Option.getD_some, hlen_eq]
  · intro el hel hne
    rw [hfr] at hel
    obtain ⟨el0, hel0, rfl⟩ := List.mem_map.mp hel
    have hne0 : el0.id ≠ tid := hne
    obtain ⟨j, hj, hlk, hgid⟩ := hlook_o el0 hel0 hne0
    have hz : (applyZ (zmapFor st.scene.elements tid .front) el0).style.zIndex
        = ((j : ℚ) + 1) * 10 := by
      show ((zmapFor st.scene.elements tid .front).lookup el0.id).getD el0.style.zIndex
        = ((j : ℚ) + 1) * 10
      rw [hlk, Option.getD_some]
    refine ⟨?_, j, hj, hz, ?_⟩
    · rw [hz]
      exact hstrict j hj
    · rw [hgid]
      rfl
  · have hmax : ∀ b ∈ (changeZIndex st .front).scene.elements,
        b.id ≠ (applyZ (zmapFor st.scene.elements tid .front) tel).id →
        zlt b (applyZ (zmapFor st.scene.elements tid .front) tel) := by
      intro b hb hbne
      have hbne' : b.id ≠ tid := by
        intro hc
        exact hbne (by rw [applyZ_id, htid, hc])
      rw [hfr] at hb
      obtain ⟨b0, hb0, rfl⟩ := List.mem_map.mp hb
      obtain ⟨j, hj, hlk, _⟩ := hlook_o b0 hb0 hbne'
      show (applyZ (zmapFor st.scene.elements tid .front) b0).style.zIndex
        < (applyZ (zmapFor st.scene.elements tid .front) tel).style.zIndex
      have hzb : (applyZ (zmapFor st.scene.elements tid .front) b0).style.zIndex
          = ((j : ℚ) + 1) * 10 := by
        show ((zmapFor st.scene.elements tid .front).lookup b0.id).getD b0.style.zIndex
          = ((j : ℚ) + 1) * 10
        rw [hlk, Option.getD_some]
      have hzt : (applyZ (zmapFor st.scene.elements tid .front) tel).style.zIndex
          = (((sortedByZ st.scene.elements).length : ℚ) + 1) * 10 := by
        show ((zmapFor st.scene.elements tid .front).lookup tel.id).getD tel.style.zIndex
          = (((sortedByZ st.scene.elements).length : ℚ) + 1) * 10
        rw [hlook_t tel.id htid, Option.getD_some]
      rw [hzb, hzt, hlen_eq]
      exact hstrict j hj
    have hnd_l : ((changeZIndex st .front).scene.elements.map (fun e => e.id)).Nodup := by
      rw [hidcol]
      exact hnd
    have hmem_l : applyZ (zmapFor st.scene.elements tid .front) tel
        ∈ (changeZIndex st .front).scene.elements := by
      rw [hfr]
      exact List.mem_map_of_mem _ htel
    have hlast := sorted_getLast?_of_strict_max _ hnd_l _ hmem_l hmax
    rw [hlast]
    show some (applyZ (zmapFor st.scene.elements tid .front) tel).id = some tid
    rw [applyZ_id, htid]
  · intro hne hlast
    have hfw := changeZIndex_elements st .forward tid rest hsel
    have hm0 := zmapFor_forward_topmost st.scene.elements hnd tid hne hlast
    rw [hfw, hm0]
    have hg_z : ∀ (j : ℕ) (hj : j < (sortedByZ st.scene.elements).length),
        (applyZ (buildZMap (sortedByZ st.scene.elements))
          ((sortedByZ st.scene.elements).get ⟨j, hj⟩)).style.zIndex
          = ((j : ℚ) + 1) * 10 := by
      intro j hj
      show ((buildZMap (sortedByZ st.scene.elements)).lookup
          ((sortedByZ st.scene.elements).get ⟨j, hj⟩).id).getD
          ((sortedByZ st.scene.elements).get ⟨j, hj⟩).style.zIndex = ((j : ℚ) + 1) * 10
      rw [buildZMap_lookup _ hnds j hj, Option.getD_some]
    have hmapped_sorted : List.Sorted zlt
        ((sortedByZ st.scene.elements).map
          (applyZ (buildZMap (sortedByZ st.scene.elements)))) := by
      refine List.pairwise_iff_getElem.mpr ?_
      intro i j hi hj hij
      rw [List.getElem_map, List.getElem_map]
      have hi' : i < (sortedByZ st.scene.elements).length := by simpa using hi
      have hj' : j < (sortedByZ st.scene.elements).length := by simpa using hj
      show zlt (applyZ _ ((sortedByZ st.scene.elements).get ⟨i, hi'⟩))
        (applyZ _ ((sortedByZ st.scene.elements).get ⟨j, hj'⟩))
      show (applyZ _ ((sortedByZ st.scene.elements).get ⟨i, hi'⟩)).style.zIndex
        < (applyZ _ ((sortedByZ st.scene.elements).get ⟨j, hj'⟩)).style.zIndex
      rw [hg_z i hi', hg_z j hj']
      have : (i : ℚ) < (j : ℚ) := by exact_mod_cast hij
      nlinarith
    have hupd_perm : List.Perm
        (sortedByZ (st.scene.elements.map
          (applyZ (buildZMap (sortedByZ st.scene.elements)))))
        ((sortedByZ st.scene.elements).map
          (applyZ (buildZMap (sortedByZ st.scene.elements)))) :=
      (sortedByZ_perm _).trans (hperm.symm.map _)
    have hnodup_z_mapped :
        (((sortedByZ st.scene.elements).map
          (applyZ (buildZMap (sortedByZ st.scene.elements)))).map
            (fun e => e.style.zIndex)).Nodup := by
      refine List.pairwise_iff_getElem.mpr ?_
      intro i j hi hj hij
      rw [List.getElem_map, List.getElem_map, List.getElem_map, List.getElem_map]
      have hi' : i < (sortedByZ st.scene.elements).length := by simpa using hi
      have hj' : j < (sortedByZ st.scene.elements).length := by simpa using hj
      show (applyZ _ ((sortedByZ st.scene.elements).get ⟨i, hi'⟩)).style.zIndex
        ≠ (applyZ _ ((sortedByZ st.scene.elements).get ⟨j, hj'⟩)).style.zIndex
      rw [hg_z i hi', hg_z j hj']
      have hlt : (i : ℚ) < (j : ℚ) := by exact_mod_cast hij
      intro hcontra
      nlinarith
    have hsorted_upd : List.Sorted zlt
        (sortedByZ (st.scene.elements.map
          (applyZ (buildZMap (sortedByZ st.scene.elements))))) := by
      refine sorted_zlt_of_nodup_z _ (sortedByZ_sorted _) ?_
      have hpz := hupd_perm.map (fun e => e.style.zIndex)
      exact (hpz.nodup_iff).mpr hnodup_z_mapped
    have heq : sortedByZ (st.scene.elements.map
          (applyZ (buildZMap (sortedByZ st.scene.elements))))
        = (sortedByZ st.scene.elements).map
          (applyZ (buildZMap (sortedByZ st.scene.elements))) :=
      List.eq_of_perm_of_sorted hupd_perm hsorted_upd hmapped_sorted
    rw [heq, List.map_map]
    rfl

def c8ElA : Element :=
  { id := "a", type := .shape, content := "c", x := 0, y := 0, width := 1,
    height := 1, rotation := 0, style := { zIndex := 0 } }

def c8ElB : Element :=
  { id := "b", type := .text, content := "t", x := 0, y := 0, width := 1,
    height := 1, rotation := 0, style := { zIndex := 1 } }

def c8St : EditorState :=
  { scene := { elements := [c8ElA, c8ElB], bgValue := "bg", bgType := .color,
               bgOpacity := 1, bgScale := 1, bgX := 0, bgY := 0 }
    selectedIds := ["b"]
    history := [{ elements := [c8ElA, c8ElB], bgValue := "bg", bgType := .color,
                  bgOpacity := 1, bgScale := 1, bgX := 0, bgY := 0 }]
    historyIndex := 0 }

theorem changeZIndex_front_forward_witness :
    ((changeZIndex c8St .front).scene.elements.map (fun e => e.id)
        = c8St.scene.elements.map (fun e => e.id)) ∧
    (∀ el ∈ (changeZIndex c8St .front).scene.elements, el.id = "b" →
        el.style.zIndex = ((c8St.scene.elements.length : ℚ) + 1) * 10) ∧
    (∀ el ∈ (changeZIndex c8St .front).scene.elements, el.id ≠ "b" →
        el.style.zIndex < ((c8St.scene.elements.length : ℚ) + 1) * 10 ∧
        ∃ j : ℕ, ∃ hj : j < (sortedByZ c8St.scene.elements).length,
          el.style.zIndex = ((j : ℚ) + 1) * 10 ∧
          ((sortedByZ c8St.scene.elements).get ⟨j, hj⟩).id = el.id) ∧
    ((sortedByZ (changeZIndex c8St .front).scene.elements).getLast?.map (fun e => e.id)
        = some "b") ∧
    (∀ hne : sortedByZ c8St.scene.elements ≠ [],
      ((sortedByZ c8St.scene.elements).getLast hne).id = "b" →
      (sortedByZ (changeZIndex c8St .forward).scene.elements).map (fun e => e.id)
        = (sortedByZ c8St.scene.elements).map (fun e => e.id)) :=
  changeZIndex_front_forward c8St "b" [] c8ElB rfl (by decide) (by decide) rfl
